import Mathlib

/-!
Shallow embedding of the PyTerminal dispatch core (the repository
`py-terminal`): the command-line tokenizer (`shlex.split` in POSIX mode),
the alias-expansion step, the natural-language classification and pattern
interpretation layer of `src/ai_interpreter.py`, and the routing state
machine of `TerminalEngine.execute_command` in `src/terminal_engine.py`,
together with the Session-mutating builtins (`cd`, `export`) and the
file-reading builtins (`cat`, `head`, `tail`) of
`src/commands/file_operations.py` and `src/commands/system_commands.py`.

Host-dependent effects (the real filesystem, process launching, the host
environment) are represented by explicit oracle parameters, and the
unbounded Python call stack of the recursive `execute_command` is
represented by a fuel parameter: running out of fuel models the Python
recursion limit being reached.
-/

namespace PyTerminal

/-- Single-quote character (codepoint 39). -/
def sqChar : Char := Char.ofNat 39

/-- Double-quote character (codepoint 34). -/
def dqChar : Char := Char.ofNat 34

/-- The single quote as a one-character string (used in messages built by
`ai_interpreter.py`, e.g. `Interpreted '...' as: ...`). -/
def sq : String := String.mk [sqChar]

/-- Python `str.lower` restricted to the ASCII range (all strings handled by
the dispatch core are ASCII). -/
def pyLower (s : String) : String := String.mk (s.data.map Char.toLower)

/-- The Python `str.strip()` whitespace set: space, tab, newline, carriage
return, vertical tab (11) and form feed (12). -/
def isPyWs (c : Char) : Bool :=
  c = ' ' || c = '\t' || c = '\n' || c = '\r' || c = Char.ofNat 11 || c = Char.ofNat 12

/-- Python `str.strip()`. -/
def pyStrip (s : String) : String :=
  String.mk (((s.data.dropWhile isPyWs).reverse.dropWhile isPyWs).reverse)

/-- Python substring test `needle in hay` on character lists. -/
def listContainsSub (hay needle : List Char) : Bool :=
  (List.range (hay.length + 1)).any (fun i => needle.isPrefixOf (hay.drop i))

/-- Python substring test `needle in hay` on strings. -/
def strContains (hay needle : String) : Bool := listContainsSub hay.data needle.data

/-- Python `"\n".join`. -/
def joinNl : List String → String
  | [] => ""
  | [x] => x
  | x :: y :: rest => x ++ "\n" ++ joinNl (y :: rest)

/-- Python `"".join`. -/
def joinEmpty : List String → String
  | [] => ""
  | x :: rest => x ++ joinEmpty rest

/-- Python `" ".join`. -/
def joinSpace (l : List String) : String := String.intercalate " " l

/-- Python `line.rstrip(newline)`: drop every trailing newline character. -/
def rstripNl (s : String) : String :=
  String.mk ((s.data.reverse.dropWhile (fun c => c = '\n')).reverse)

/-- Digits-only string to `Nat` (`none` when empty or a non-digit occurs). -/
def digitsToNat : List Char → Option Nat
  | [] => none
  | l => if l.all Char.isDigit then some (l.foldl (fun a c => a * 10 + (c.toNat - 48)) 0) else none

/-- Python `int(s)` on decimal strings: surrounding whitespace is stripped,
an optional sign is accepted, then decimal digits (digit-separating
underscores are not modelled; no input relevant here contains them). -/
def pyToInt (s : String) : Option Int :=
  match (pyStrip s).data with
  | [] => none
  | c :: cs =>
    if c = '-' then (digitsToNat cs).map (fun n => -(n : Int))
    else if c = '+' then (digitsToNat cs).map (fun n => (n : Int))
    else (digitsToNat (c :: cs)).map (fun n => (n : Int))

/-- The uniform result triple `(exit_code, stdout, stderr)` that every
command path of the engine returns (`CommandResult` in the specification;
a plain `Tuple[int, str, str]` in the source). -/
structure CommandResult where
  exitCode : Int
  stdout : String
  stderr : String
deriving DecidableEq, Repr

/-- Regular-expression fragments covering exactly the constructs used by the
patterns of `AICommandInterpreter._initialize_patterns`: literal characters,
character classes, concatenation, alternation, greedy option `?`, a greedy
one-or-more repetition of a character class (`[^"\x27]+`), and numbered
capturing groups. -/
inductive Rx where
  | eps
  | ch (c : Char)
  | cls (neg : Bool) (cs : List Char)
  | seq (a b : Rx)
  | alt (a b : Rx)
  | opt (a : Rx)
  | plusCls (neg : Bool) (cs : List Char)
  | group (idx : Nat) (a : Rx)
deriving Repr

/-- Character-class membership. -/
def clsMatch (neg : Bool) (cs : List Char) (c : Char) : Bool :=
  if neg then !(cs.contains c) else cs.contains c

/-- All ways for a regex to match a prefix of the input, in Python
backtracking priority order (alternation prefers the left branch, `?` and
`+` are greedy).  Each result is the remaining input paired with the list of
captured groups.  Literal characters compare case-insensitively, modelling
the `re.IGNORECASE` flag that `_pattern_match_interpret` always passes. -/
def matchRx : Rx → List Char → List (List Char × List (Nat × List Char))
  | .eps, s => [(s, [])]
  | .ch _, [] => []
  | .ch c, x :: xs => if x.toLower = c.toLower then [(xs, [])] else []
  | .cls _ _, [] => []
  | .cls neg cs, x :: xs => if clsMatch neg cs x then [(xs, [])] else []
  | .seq a b, s =>
      (matchRx a s).flatMap (fun p =>
        (matchRx b p.1).map (fun q => (q.1, p.2 ++ q.2)))
  | .alt a b, s => matchRx a s ++ matchRx b s
  | .opt a, s => matchRx a s ++ [(s, [])]
  | .plusCls neg cs, s =>
      let n := (s.takeWhile (clsMatch neg cs)).length
      (List.range n).map (fun i => (s.drop (n - i), []))
  | .group i a, s =>
      (matchRx a s).map (fun p => (p.1, (i, s.take (s.length - p.1.length)) :: p.2))

/-- Python `re.search`: try each start position from the left; at the first
position where the pattern matches, return the captures of the
highest-priority match. -/
def searchRx (r : Rx) (s : List Char) : Option (List (Nat × List Char)) :=
  match matchRx r s with
  | p :: _ => some p.2
  | [] =>
    match s with
    | [] => none
    | _ :: s' => searchRx r s'

def braceOpen : Char := Char.ofNat 123

def braceClose : Char := Char.ofNat 125

/-- Python `template.format(*groups)` restricted to the shapes occurring in
the rule table: positional placeholders `{i}` with a single digit.  A
placeholder referring to a group that was not captured models the
`IndexError` that `_pattern_match_interpret` catches (returned as `none`),
as does a malformed placeholder (Python `ValueError`). -/
def formatTemplate (caps : List (Nat × List Char)) : List Char → Option (List Char)
  | [] => some []
  | c :: rest =>
    if c = braceOpen then
      match rest with
      | d :: c2 :: rest' =>
        if d.isDigit && c2 = braceClose then
          match caps.lookup (d.toNat - 48) with
          | some g => (formatTemplate caps rest').map (fun t => g ++ t)
          | none => none
        else none
      | _ => none
    else (formatTemplate caps rest).map (fun t => c :: t)

/-- Literal word: the given characters in sequence. -/
def rlit (s : String) : Rx := s.data.foldr (fun c r => Rx.seq (Rx.ch c) r) Rx.eps

/-- Sequence of fragments. -/
def rseq (l : List Rx) : Rx := l.foldr Rx.seq Rx.eps

/-- Ordered alternation (`a|b|...`), preferring earlier branches. -/
def ralt : List Rx → Rx
  | [] => Rx.eps
  | [r] => r
  | r :: rs => Rx.alt r (ralt rs)

/-- The characters of the class `["\x27]` (double and single quote). -/
def quoteCls : List Char := [dqChar, sqChar]

/-- The fragment `["\x27]?`: an optional opening/closing quote. -/
def qOpt : Rx := Rx.opt (Rx.cls false quoteCls)

/-- The fragment `([^"\x27]+)`: a greedy capture of non-quote characters. -/
def capNQ (i : Nat) : Rx := Rx.group i (Rx.plusCls true quoteCls)

/-- One entry of the ordered rule table: match patterns, a command template
with positional placeholders, and a human-readable description
(the dictionaries of `AICommandInterpreter._initialize_patterns`). -/
structure Rule where
  patterns : List Rx
  commandTemplate : String
  description : String

/-- The fragment `(?:\x27s| is)` occurring in the `what's`/`what is`
patterns. -/
def apostropheSOrIs : Rx := ralt [Rx.seq (Rx.ch sqChar) (rlit "s"), rlit " is"]

/-- The ordered rule table of `AICommandInterpreter._initialize_patterns`,
transcribed pattern for pattern in declaration order. -/
def initializePatterns : List Rule := [
  -- File creation patterns → 'touch {0}'
  ⟨[rseq [rlit "create ", Rx.opt (rlit "a "), Rx.opt (rlit "new "), rlit "file ",
          Rx.opt (ralt [rlit "called ", rlit "named "]), qOpt, capNQ 0, qOpt],
    rseq [rlit "make ", Rx.opt (rlit "a "), Rx.opt (rlit "new "), rlit "file ",
          qOpt, capNQ 0, qOpt],
    rseq [rlit "touch ", Rx.opt (rlit "a "), Rx.opt (rlit "file "), qOpt, capNQ 0, qOpt]],
   "touch {0}", "Create a new file"⟩,
  -- Directory creation patterns → 'mkdir {0}'
  ⟨[rseq [rlit "create ", Rx.opt (rlit "a "), Rx.opt (rlit "new "),
          ralt [rlit "directory", rlit "folder", rlit "dir"], rlit " ",
          Rx.opt (ralt [rlit "called ", rlit "named "]), qOpt, capNQ 0, qOpt],
    rseq [rlit "make ", Rx.opt (rlit "a "), Rx.opt (rlit "new "),
          ralt [rlit "directory", rlit "folder", rlit "dir"], rlit " ",
          qOpt, capNQ 0, qOpt],
    rseq [rlit "mkdir ", qOpt, capNQ 0, qOpt]],
   "mkdir {0}", "Create a new directory"⟩,
  -- File listing patterns → 'ls -la'
  ⟨[rseq [ralt [rlit "list", rlit "show", rlit "display"], rlit " ",
          Rx.opt (rlit "the "), ralt [rlit "files", rlit "contents"], rlit " ",
          Rx.opt (ralt [rlit "in ", rlit "of "]), Rx.opt (rlit "this "),
          Rx.opt (ralt [rlit "directory", rlit "folder"])],
    rseq [ralt [rlit "what", rlit "which"], rlit " files are ",
          ralt [rlit "in ", rlit "here", rlit "there"]],
    rseq [rlit "show me ", Rx.opt (rlit "the "), ralt [rlit "files", rlit "contents"]],
    rseq [rlit "list ", Rx.opt (rlit "all "), ralt [rlit "files", rlit "everything"]]],
   "ls -la", "List directory contents"⟩,
  -- Directory navigation patterns → 'cd {0}'
  ⟨[rseq [ralt [rlit "go to", rlit "navigate to", rlit "change to", rlit "cd to"], rlit " ",
          Rx.opt (rlit "the "), ralt [rlit "directory", rlit "folder"], rlit " ",
          qOpt, capNQ 0, qOpt],
    rseq [ralt [rlit "enter", rlit "open"], rlit " ", Rx.opt (rlit "the "),
          ralt [rlit "directory", rlit "folder"], rlit " ", qOpt, capNQ 0, qOpt],
    rseq [rlit "cd ", qOpt, capNQ 0, qOpt]],
   "cd {0}", "Change directory"⟩,
  -- File copying patterns → 'cp {0} {1}'
  ⟨[rseq [rlit "copy ", Rx.opt (rlit "the "), rlit "file ", qOpt, capNQ 0, qOpt,
          rlit " to ", qOpt, capNQ 1, qOpt],
    rseq [rlit "duplicate ", qOpt, capNQ 0, qOpt, rlit " ",
          ralt [rlit "as ", rlit "to "], qOpt, capNQ 1, qOpt],
    rseq [rlit "cp ", qOpt, capNQ 0, qOpt, rlit " ", qOpt, capNQ 1, qOpt]],
   "cp {0} {1}", "Copy file"⟩,
  -- File moving patterns → 'mv {0} {1}'
  ⟨[rseq [rlit "move ", Rx.opt (rlit "the "), rlit "file ", qOpt, capNQ 0, qOpt,
          rlit " to ", qOpt, capNQ 1, qOpt],
    rseq [rlit "rename ", qOpt, capNQ 0, qOpt, rlit " ",
          ralt [rlit "as ", rlit "to "], qOpt, capNQ 1, qOpt],
    rseq [rlit "mv ", qOpt, capNQ 0, qOpt, rlit " ", qOpt, capNQ 1, qOpt]],
   "mv {0} {1}", "Move/rename file"⟩,
  -- File deletion patterns → 'rm {0}'
  ⟨[rseq [rlit "delete ", Rx.opt (rlit "the "), rlit "file ", qOpt, capNQ 0, qOpt],
    rseq [rlit "remove ", Rx.opt (rlit "the "), rlit "file ", qOpt, capNQ 0, qOpt],
    rseq [rlit "rm ", qOpt, capNQ 0, qOpt]],
   "rm {0}", "Delete file"⟩,
  -- Directory deletion patterns → 'rm -r {0}'
  ⟨[rseq [rlit "delete ", Rx.opt (rlit "the "), ralt [rlit "directory", rlit "folder"],
          rlit " ", qOpt, capNQ 0, qOpt],
    rseq [rlit "remove ", Rx.opt (rlit "the "), ralt [rlit "directory", rlit "folder"],
          rlit " ", qOpt, capNQ 0, qOpt],
    rseq [rlit "rmdir ", qOpt, capNQ 0, qOpt]],
   "rm -r {0}", "Delete directory"⟩,
  -- File content viewing patterns → 'cat {0}'
  ⟨[rseq [ralt [rlit "show", rlit "display", rlit "view", rlit "read"], rlit " ",
          Rx.opt (rlit "the "), ralt [rlit "contents of ", rlit "file "],
          qOpt, capNQ 0, qOpt],
    rseq [rlit "cat ", qOpt, capNQ 0, qOpt],
    rseq [rlit "what", apostropheSOrIs, rlit " in ", Rx.opt (rlit "the "),
          rlit "file ", qOpt, capNQ 0, qOpt]],
   "cat {0}", "Display file contents"⟩,
  -- Process listing patterns → 'ps -af'
  ⟨[rseq [ralt [rlit "show", rlit "list", rlit "display"], rlit " ",
          Rx.opt (rlit "all "), Rx.opt (rlit "running "), rlit "processes"],
    rlit "what processes are running",
    rlit "ps aux"],
   "ps -af", "List running processes"⟩,
  -- System information patterns → 'free -h'
  ⟨[rseq [rlit "show ", Rx.opt (rlit "me "), ralt [rlit "system", rlit "memory"],
          rlit " ", ralt [rlit "info", rlit "information", rlit "usage"]],
    rseq [rlit "how much memory ", ralt [rlit "am I", rlit "are we"], rlit " using"],
    rlit "memory status"],
   "free -h", "Show memory usage"⟩,
  -- Disk usage patterns → 'df -h'
  ⟨[rseq [ralt [rlit "show", rlit "display"], rlit " disk ",
          ralt [rlit "usage", rlit "space"]],
    rseq [rlit "how much ", Rx.opt (rlit "disk "), rlit "space ",
          ralt [rlit "do I have", rlit "is left", rlit "is available"]],
    rlit "df -h"],
   "df -h", "Show disk usage"⟩,
  -- Current directory patterns → 'pwd'
  ⟨[ralt [rlit "where am I",
          rseq [rlit "what", apostropheSOrIs, rlit " ", Rx.opt (rlit "my "),
                rlit "current ", ralt [rlit "directory", rlit "location"]]],
    rseq [ralt [rlit "show", rlit "print"], rlit " ", Rx.opt (rlit "current "),
          ralt [rlit "directory", rlit "working directory"]],
    rlit "pwd"],
   "pwd", "Show current directory"⟩,
  -- Complex operations patterns → 'mkdir {0} && mv {1} {0}/'
  ⟨[rseq [rlit "create ", Rx.opt (rlit "a "), Rx.opt (rlit "new "),
          ralt [rlit "directory", rlit "folder"], rlit " ",
          Rx.opt (ralt [rlit "called ", rlit "named "]), qOpt, capNQ 0, qOpt,
          rlit " and move ", qOpt, capNQ 1, qOpt, rlit " ",
          ralt [rlit "into it", rlit "there"]],
    rseq [rlit "make ", Rx.opt (rlit "a "), ralt [rlit "directory", rlit "folder"],
          rlit " ", qOpt, capNQ 0, qOpt, rlit " and put ", qOpt, capNQ 1, qOpt,
          rlit " in it"]],
   "mkdir {0} && mv {1} {0}/", "Create directory and move file into it"⟩,
  -- Search patterns → 'find . -name "*{0}*"'
  ⟨[rseq [rlit "find ", Rx.opt (rlit "all "), rlit "files ",
          Rx.opt (ralt [rlit "called ", rlit "named ", rlit "with name "]),
          qOpt, capNQ 0, qOpt],
    rseq [rlit "search for ", Rx.opt (rlit "files "), qOpt, capNQ 0, qOpt],
    rseq [rlit "locate ", qOpt, capNQ 0, qOpt]],
   "find . -name \"*{0}*\"", "Find files by name"⟩,
  -- Text search patterns → 'grep "{0}" {1}'
  ⟨[rseq [rlit "search for ", qOpt, capNQ 0, qOpt, rlit " in ",
          Rx.opt (rlit "file "), qOpt, capNQ 1, qOpt],
    rseq [rlit "find ", qOpt, capNQ 0, qOpt, rlit " in ", qOpt, capNQ 1, qOpt],
    rseq [rlit "grep ", qOpt, capNQ 0, qOpt, rlit " ", qOpt, capNQ 1, qOpt]],
   "grep \"{0}\" {1}", "Search for text in file"⟩]

/-- The inner pattern loop of `_pattern_match_interpret`: try each pattern of
one rule in order; on a regex match, attempt template substitution, and on a
substitution failure fall through to the next pattern (`continue`). -/
def scanPatterns (q : List Char) (tmpl desc : String) : List Rx → Option (String × String)
  | [] => none
  | p :: ps =>
    match searchRx p q with
    | none => scanPatterns q tmpl desc ps
    | some caps =>
      match formatTemplate caps tmpl.data with
      | some cmd => some (String.mk cmd, desc)
      | none => scanPatterns q tmpl desc ps

/-- The outer rule loop of `_pattern_match_interpret`: rules in declaration
order, first successful pattern wins. -/
def scanRules (q : List Char) : List Rule → Option (String × String)
  | [] => none
  | r :: rs =>
    match scanPatterns q r.commandTemplate r.description r.patterns with
    | some x => some x
    | none => scanRules q rs

/-- Declarative restatement of the matching policy, following the
specification text: flatten the rules into the ordered list of
(pattern, template, description) triples and take the first triple whose
pattern matches and whose substitution succeeds; a failed substitution is a
non-match. -/
def scanRulesSpec (q : List Char) (rules : List Rule) : Option (String × String) :=
  (rules.flatMap (fun r => r.patterns.map (fun p => (p, r.commandTemplate, r.description)))).findSome?
    (fun t => (searchRx t.1 q).bind (fun caps =>
      (formatTemplate caps t.2.1.data).map (fun cmd => (String.mk cmd, t.2.2))))

/-- The keyword fallback table of `_fallback_interpretation`. -/
def fallbackKeywords : List (List String × String × String) := [
  (["help", "commands", "what can you do"], "help", "Show available commands"),
  (["list", "show", "files"], "ls", "List files in current directory"),
  (["processes", "running"], "ps", "Show running processes"),
  (["memory", "ram"], "free", "Show memory usage"),
  (["disk", "space"], "df", "Show disk usage"),
  (["where", "location", "directory"], "pwd", "Show current directory"),
  (["clear", "clean"], "clear", "Clear the terminal screen")]

/-- `AICommandInterpreter._fallback_interpretation`: first keyword set with
any keyword a substring of the (already lowercased) query wins. -/
def fallbackInterpretation (q : String) : String × String :=
  match fallbackKeywords.find? (fun e => e.1.any (fun k => strContains q k)) with
  | some e => (e.2.1, "Interpreted as: " ++ e.2.1 ++ " - " ++ e.2.2)
  | none => ("", "")

/-- `AICommandInterpreter._pattern_match_interpret` on an already stripped
query: rule scan first, then keyword fallback, else not matched. -/
def patternMatchInterpret (q : String) : Bool × String × String :=
  match scanRules q.data initializePatterns with
  | some cd =>
    (true, cd.1, "Interpreted " ++ sq ++ q ++ sq ++ " as: " ++ cd.1 ++ "\nAction: " ++ cd.2)
  | none =>
    let fb := fallbackInterpretation (pyLower q)
    if fb.1 ≠ "" then (true, fb.1, fb.2)
    else (false, "", "Could not interpret: " ++ sq ++ q ++ sq)

/-- `AICommandInterpreter.interpret` in the offline configuration (no
`GEMINI_API_KEY` present, so `use_gemini` is false and the remote path is
skipped entirely): strip the query, reject an empty one, then use
deterministic pattern matching. -/
def interpret (q : String) : Bool × String × String :=
  let query := pyStrip q
  if query = "" then (false, "", "Empty query")
  else patternMatchInterpret query

/-- The whitespace set of the `shlex` lexer (space, tab, carriage return,
newline). -/
def isShlexWs (c : Char) : Bool := c = ' ' || c = '\t' || c = '\r' || c = '\n'

/-- The backslash character (codepoint 92), the `shlex` escape character. -/
def bsChar : Char := Char.ofNat 92

/-- Lexer states of `shlex` in POSIX mode with `whitespace_split`:
between tokens, inside a word, inside single/double quotes, and after the
escape character (outside quotes or inside double quotes). -/
inductive LexState where
  | start
  | word
  | inSquote
  | inDquote
  | escWord
  | escDquote

/-- One pass of the `shlex` POSIX lexer (as used by `shlex.split`:
`posix=True`, `whitespace_split=True`, no comment characters).  `tok` is the
token built so far and `quoted` records whether it saw a quote, so that an
empty quoted token is still emitted.  Errors are the `ValueError` messages
the Python lexer raises. -/
def lexRun : LexState → List Char → Bool → List Char → Except String (List (List Char))
  | .start, _, _, [] => .ok []
  | .word, tok, _, [] => .ok [tok]
  | .inSquote, _, _, [] => .error "No closing quotation"
  | .inDquote, _, _, [] => .error "No closing quotation"
  | .escWord, _, _, [] => .error "No escaped character"
  | .escDquote, _, _, [] => .error "No escaped character"
  | .start, tok, quoted, c :: cs =>
    if isShlexWs c then lexRun .start tok quoted cs
    else if c = sqChar then lexRun .inSquote tok true cs
    else if c = dqChar then lexRun .inDquote tok true cs
    else if c = bsChar then lexRun .escWord tok quoted cs
    else lexRun .word (tok ++ [c]) quoted cs
  | .word, tok, quoted, c :: cs =>
    if isShlexWs c then (lexRun .start [] false cs).map (fun ts => tok :: ts)
    else if c = sqChar then lexRun .inSquote tok true cs
    else if c = dqChar then lexRun .inDquote tok true cs
    else if c = bsChar then lexRun .escWord tok quoted cs
    else lexRun .word (tok ++ [c]) quoted cs
  | .inSquote, tok, quoted, c :: cs =>
    if c = sqChar then lexRun .word tok quoted cs
    else lexRun .inSquote (tok ++ [c]) quoted cs
  | .inDquote, tok, quoted, c :: cs =>
    if c = dqChar then lexRun .word tok quoted cs
    else if c = bsChar then lexRun .escDquote tok quoted cs
    else lexRun .inDquote (tok ++ [c]) quoted cs
  | .escWord, tok, quoted, c :: cs => lexRun .word (tok ++ [c]) quoted cs
  | .escDquote, tok, quoted, c :: cs =>
    if c = bsChar || c = dqChar then lexRun .inDquote (tok ++ [c]) quoted cs
    else lexRun .inDquote (tok ++ [bsChar, c]) quoted cs

/-- `shlex.split` on POSIX rules. -/
def shlexSplit (s : String) : Except String (List String) :=
  (lexRun .start [] false s.data).map (fun ts => ts.map String.mk)

/-- `TerminalEngine.parse_command_line`: tokenize, wrapping a lexer
`ValueError` into the engine's syntax-error message. -/
def parseCommandLine (line : String) : Except String (List String) :=
  match shlexSplit line with
  | .ok args => .ok args
  | .error e => .error ("Invalid command syntax: " ++ e)

/-- The fixed natural-language indicator list of
`TerminalEngine.execute_command` (terminal_engine.py lines 102-106). -/
def naturalLanguageIndicators : List String :=
  [" a ", " the ", " and ", " or ", " to ", " from ", " in ", " of ",
   "create", "make", "show me", "list all", "find all", "what is",
   "where am", "how much", "search for"]

/-- The natural-language candidate check of `execute_command`: any indicator
is a substring of the lowercased line. -/
def isNaturalLanguage (line : String) : Bool :=
  naturalLanguageIndicators.any (fun ind => strContains (pyLower line) ind)

/-- The registry keys of `TerminalEngine.builtin_commands`. -/
def builtinNames : List String :=
  ["ls", "cd", "pwd", "mkdir", "rmdir", "rm", "cp", "mv", "touch", "cat",
   "head", "tail", "find", "grep",
   "ps", "kill", "jobs", "bg", "fg", "env", "export", "alias", "unalias",
   "which", "whoami", "date", "uptime",
   "top", "htop", "free", "df", "du", "lscpu", "lsblk",
   "help", "exit", "clear", "history", "ai"]

/-- A mutable alias table (`TerminalEngine.aliases`), a Python dict as an
association list with unique keys. -/
def AliasTable := List (String × String)

/-- The routing outcome of one `execute_command` call, before any handler
runs: an early `CommandResult` (empty line, syntax error, empty alias
expansion), a builtin-registry dispatch, an external-process dispatch, or
exhaustion of the call stack (`outOfFuel` models the Python recursion limit
being reached by the unbounded self-recursion on translated lines). -/
inductive Dispatch where
  | result (r : CommandResult)
  | builtin (name : String) (argv : List String)
  | external (argv : List String)
  | outOfFuel
deriving DecidableEq, Repr

/-- Registry resolution (terminal_engine.py lines 134-139): a builtin
handler receives the arguments after the command name, the external path
receives the full token list. -/
def resolveDispatch (c : String) (rest : List String) : Dispatch :=
  if builtinNames.contains c then .builtin c rest else .external (c :: rest)

/-- The literal path of `execute_command` (lines 119-139): tokenize, expand
an alias for the first token exactly once and re-tokenize, then resolve
against the registry.  A tokenizer `ValueError` is the caught exception that
returns exit code 1, and an alias expansion that re-tokenizes to an empty
list is the caught `IndexError` of `args[0]`. -/
def literalDispatch (al : AliasTable) (line : String) : Dispatch :=
  match parseCommandLine line with
  | .error msg => .result ⟨1, "", "PyTerminal: " ++ msg⟩
  | .ok [] => .result ⟨0, "", ""⟩
  | .ok (c :: rest) =>
    match List.lookup c al with
    | some exp =>
      match parseCommandLine (exp ++ " " ++ joinSpace rest) with
      | .error msg => .result ⟨1, "", "PyTerminal: " ++ msg⟩
      | .ok [] => .result ⟨1, "", "PyTerminal: list index out of range"⟩
      | .ok (c2 :: rest2) => resolveDispatch c2 rest2
    | none => resolveDispatch c rest

/-- The dispatch core of `TerminalEngine.execute_command`, in the offline
configuration, as a routing function: it returns the list of history
entries appended during the call (`self.command_history.append`, line 97,
runs once per invocation, including recursive ones) together with the
routing outcome.  The recursive re-submission of an interpreted command
(line 117) consumes one unit of fuel; the source recursion is unbounded, so
fuel exhaustion models exceeding the Python recursion limit.  Handler
execution itself is outside the routing function and is represented by the
`Dispatch` value. -/
def executeCommand (al : AliasTable) : Nat → String → List String × Dispatch
  | 0, _ => ([], .outOfFuel)
  | fuel + 1, line =>
    if pyStrip line = "" then ([], .result ⟨0, "", ""⟩)
    else if isNaturalLanguage line && (interpret line).1 then
      let r := executeCommand al fuel (interpret line).2.1
      (line :: r.1, r.2)
    else
      ([line], literalDispatch al line)

/-- `FileOperations._resolve_path` on POSIX paths: absolute paths stand,
relative paths are joined to the session's current directory (the textual
normalization performed by `pathlib` is abstracted). -/
def resolvePath (cwd : String) (p : String) : String :=
  match p.data with
  | '/' :: _ => p
  | _ => cwd ++ "/" ++ p

/-- Filesystem oracle for the `cd` handler: existence, directory test,
whether `os.chdir` raises `PermissionError`, and `Path.resolve`. -/
structure Fs where
  pathExists : String → Bool
  isDirectory : String → Bool
  chdirDenied : String → Bool
  realpath : String → String

namespace FileOperations

/-- `FileOperations.cd`: with no argument the target is the home directory,
otherwise the resolved first argument; the target is validated to exist and
be a directory before `current_directory` is assigned, and a
`PermissionError` from `os.chdir` also leaves it unchanged.  Returns the new
current directory together with the result. -/
def cd (fs : Fs) (home cwd : String) (args : List String) : String × CommandResult :=
  let target := match args with
    | [] => home
    | a :: _ => resolvePath cwd a
  if !(fs.pathExists target) then
    (cwd, ⟨1, "", "cd: no such file or directory: " ++ target⟩)
  else if !(fs.isDirectory target) then
    (cwd, ⟨1, "", "cd: not a directory: " ++ target⟩)
  else if fs.chdirDenied target then
    (cwd, ⟨1, "", "cd: permission denied: " ++ target⟩)
  else
    (fs.realpath target, ⟨0, "", ""⟩)

/-- Per-file state seen by the reading builtins: a readable file is its
`readlines()` decomposition (each element carries its trailing newline,
except possibly the last), otherwise the directory test or the exception
`open` raises. -/
inductive FileState where
  | content (lines : List String)
  | dir
  | notFound
  | permDenied
  | err (msg : String)

/-- Whether a path opens as an ordinary readable file. -/
def fileOk (fs : String → FileState) (cwd f : String) : Bool :=
  match fs (resolvePath cwd f) with
  | .content _ => true
  | _ => false

/-- The per-file loop of `FileOperations.cat`: successful reads append the
whole text to `output` (even an empty text), failures append a message to
`errors`. -/
def catLoop (fs : String → FileState) (cwd : String) : List String → List String × List String
  | [] => ([], [])
  | f :: rest =>
    let r := catLoop fs cwd rest
    match fs (resolvePath cwd f) with
    | .content ls => (joinEmpty ls :: r.1, r.2)
    | .dir => (r.1, ("cat: " ++ f ++ ": Is a directory") :: r.2)
    | .notFound => (r.1, ("cat: " ++ f ++ ": No such file or directory") :: r.2)
    | .permDenied => (r.1, ("cat: " ++ f ++ ": Permission denied") :: r.2)
    | .err m => (r.1, ("cat: " ++ f ++ ": " ++ m) :: r.2)

/-- `FileOperations.cat`: exit code 1 exactly when there were errors and no
output. -/
def cat (fs : String → FileState) (cwd : String) (args : List String) : CommandResult :=
  if args = [] then ⟨1, "", "cat: missing file operand"⟩
  else
    let oe := catLoop fs cwd args
    ⟨if oe.2 ≠ [] && oe.1 = [] then 1 else 0, joinEmpty oe.1, joinNl oe.2⟩

/-- The argument scan shared by `head` and `tail` (their `-n` handling is
identical up to the command name in messages): a standalone `-n` takes the
next argument as the count, `-nK` carries it inline, anything else is a file
name; a count that `int()` rejects aborts with exit code 1.  A trailing
standalone `-n` falls through to the inline branch and fails on `int("")`,
as in the source. -/
def scanNFiles (cmd : String) : Int → List String → List String → Except CommandResult (Int × List String)
  | n, files, [] => .ok (n, files.reverse)
  | n, files, a :: rest =>
    if a = "-n" && rest ≠ [] then
      match rest with
      | v :: rest' =>
        match pyToInt v with
        | some k => scanNFiles cmd k files rest'
        | none => .error ⟨1, "", cmd ++ ": invalid number of lines: " ++ sq ++ v ++ sq⟩
      | [] => .ok (n, files.reverse)
    else if ("-n").data.isPrefixOf a.data then
      match pyToInt (String.mk (a.data.drop 2)) with
      | some k => scanNFiles cmd k files rest
      | none =>
        .error ⟨1, "", cmd ++ ": invalid number of lines: " ++ sq ++ String.mk (a.data.drop 2) ++ sq⟩
    else scanNFiles cmd n (a :: files) rest

/-- The per-file loop of `FileOperations.head`: a successful read
contributes a `==> name <==` banner when more than one file was named,
followed by the first `n` lines with trailing newlines stripped. -/
def headLoop (fs : String → FileState) (cwd : String) (multi : Bool) (n : Int) :
    List String → List String × List String
  | [] => ([], [])
  | f :: rest =>
    let r := headLoop fs cwd multi n rest
    match fs (resolvePath cwd f) with
    | .content ls =>
      ((if multi then ["==> " ++ f ++ " <=="] else []) ++ (ls.take n.toNat).map rstripNl ++ r.1, r.2)
    | .dir => (r.1, ("head: " ++ f ++ ": Is a directory") :: r.2)
    | .notFound => (r.1, ("head: " ++ f ++ ": No such file or directory") :: r.2)
    | .permDenied => (r.1, ("head: " ++ f ++ ": Permission denied") :: r.2)
    | .err m => (r.1, ("head: " ++ f ++ ": " ++ m) :: r.2)

/-- `FileOperations.head`. -/
def head (fs : String → FileState) (cwd : String) (args : List String) : CommandResult :=
  match scanNFiles "head" 10 [] args with
  | .error r => r
  | .ok nf =>
    if nf.2 = [] then ⟨1, "", "head: missing file operand"⟩
    else
      let oe := headLoop fs cwd (decide (nf.2.length > 1)) nf.1 nf.2
      ⟨if oe.2 ≠ [] && oe.1 = [] then 1 else 0, joinNl oe.1, joinNl oe.2⟩

/-- The Python slice `file_lines[-lines:] if len(file_lines) > lines else
file_lines` used by `tail`: when the list is longer than `n`, a positive `n`
keeps the last `n` elements and a non-positive `n` drops the first `-n`
(slice index `-n ≥ 0`). -/
def pyTailSlice (n : Int) (ls : List String) : List String :=
  if n < (ls.length : Int) then
    if 0 < n then ls.drop (ls.length - n.toNat)
    else ls.drop (-n).toNat
  else ls

/-- The per-file loop of `FileOperations.tail` (like `head`, with the last
`n` lines). -/
def tailLoop (fs : String → FileState) (cwd : String) (multi : Bool) (n : Int) :
    List String → List String × List String
  | [] => ([], [])
  | f :: rest =>
    let r := tailLoop fs cwd multi n rest
    match fs (resolvePath cwd f) with
    | .content ls =>
      ((if multi then ["==> " ++ f ++ " <=="] else []) ++ (pyTailSlice n ls).map rstripNl ++ r.1, r.2)
    | .dir => (r.1, ("tail: " ++ f ++ ": Is a directory") :: r.2)
    | .notFound => (r.1, ("tail: " ++ f ++ ": No such file or directory") :: r.2)
    | .permDenied => (r.1, ("tail: " ++ f ++ ": Permission denied") :: r.2)
    | .err m => (r.1, ("tail: " ++ f ++ ": " ++ m) :: r.2)

/-- `FileOperations.tail`. -/
def tail (fs : String → FileState) (cwd : String) (args : List String) : CommandResult :=
  match scanNFiles "tail" 10 [] args with
  | .error r => r
  | .ok nf =>
    if nf.2 = [] then ⟨1, "", "tail: missing file operand"⟩
    else
      let oe := tailLoop fs cwd (decide (nf.2.length > 1)) nf.1 nf.2
      ⟨if oe.2 ≠ [] && oe.1 = [] then 1 else 0, joinNl oe.1, joinNl oe.2⟩

end FileOperations

/-- Python dict assignment `m[k] = v`: update in place when the key exists
(preserving insertion order), otherwise append. -/
def dictSet (m : List (String × String)) (k v : String) : List (String × String) :=
  if m.any (fun p => p.1 = k) then m.map (fun p => if p.1 = k then (k, v) else p)
  else m ++ [(k, v)]

/-- Python `arg.split(eq, 1)` on the equals sign, returning `none` when the
separator does not occur (the `if eq in arg` test of `export`). -/
def splitEqOnce (arg : String) : Option (String × String) :=
  if arg.data.contains '=' then
    some (String.mk (arg.data.takeWhile (fun c => c ≠ '=')),
          String.mk ((arg.data.dropWhile (fun c => c ≠ '=')).drop 1))
  else none

/-- The environment state touched by `export`: the Session-scoped mapping
`TerminalEngine.environment_vars` and the host process environment
`os.environ`. -/
structure EnvWorld where
  environmentVars : List (String × String)
  hostEnviron : List (String × String)
deriving DecidableEq, Repr

/-- Stable insertion sort with a boolean `≤`. -/
def insertLe (le : α → α → Bool) (x : α) : List α → List α
  | [] => [x]
  | y :: ys => if le x y then x :: y :: ys else y :: insertLe le x ys

/-- Stable sort (Python `sorted`). -/
def sortByLe (le : α → α → Bool) : List α → List α
  | [] => []
  | x :: xs => insertLe le x (sortByLe le xs)

/-- Python tuple comparison on `(key, value)` string pairs. -/
def pairLe (a b : String × String) : Bool :=
  decide (a.1 < b.1) || (a.1 = b.1 && decide (a.2 ≤ b.2))

namespace SystemCommands

/-- `SystemCommands.env`: the Session environment, sorted, one `k=v` per
line. -/
def env (vars : List (String × String)) : CommandResult :=
  ⟨0, joinNl ((sortByLe pairLe vars).map (fun p => p.1 ++ "=" ++ p.2)), ""⟩

/-- The argument loop of `SystemCommands.export`: `NAME=VALUE` assigns into
the Session mapping and into the host process environment (`os.environ`,
system_commands.py line 165); a bare existing `NAME` copies its Session
value into the host environment; a bare unknown `NAME` stops with exit
code 1, keeping the mutations already made. -/
def exportLoop (w : EnvWorld) : List String → EnvWorld × CommandResult
  | [] => (w, ⟨0, "", ""⟩)
  | arg :: rest =>
    match splitEqOnce arg with
    | some kv =>
      exportLoop ⟨dictSet w.environmentVars kv.1 kv.2, dictSet w.hostEnviron kv.1 kv.2⟩ rest
    | none =>
      match List.lookup arg w.environmentVars with
      | some v => exportLoop ⟨w.environmentVars, dictSet w.hostEnviron arg v⟩ rest
      | none => (w, ⟨1, "", "export: " ++ arg ++ ": not found"⟩)

/-- `SystemCommands.export`: with no arguments it displays the environment,
otherwise it runs the argument loop. -/
def exportCmd (w : EnvWorld) (args : List String) : EnvWorld × CommandResult :=
  if args = [] then (w, env w.environmentVars)
  else exportLoop w args

end SystemCommands

/-- Outcome of attempting to launch an external process
(`subprocess.run`): it ran and produced a result, the executable was not
found (`FileNotFoundError`), or some other launch failure occurred. -/
inductive LaunchOutcome where
  | ran (code : Int) (out err : String)
  | notFound
  | failed (msg : String)
deriving DecidableEq, Repr

/-- `TerminalEngine.execute_external_command`: launch with the session's
current directory and Session environment mapping; `FileNotFoundError` maps
to exit code 127 with a `command not found` message naming the attempted
command, any other launch failure maps to exit code 1 with a descriptive
message, and no exception escapes. -/
def executeExternalCommand
    (launch : List String → String → List (String × String) → LaunchOutcome)
    (cwd : String) (envVars : List (String × String)) (args : List String) : CommandResult :=
  match launch args cwd envVars with
  | .ran code out err => ⟨code, out, err⟩
  | .notFound => ⟨127, "", "PyTerminal: command not found: " ++ args.headD ""⟩
  | .failed msg => ⟨1, "", "PyTerminal: error executing command: " ++ msg⟩

/-- Appending to a nonempty string stays nonempty. -/
theorem strAppendNeEmpty (a b : String) (ha : a ≠ "") : a ++ b ≠ "" := by
  intro h
  apply ha
  have hd := congrArg String.data h
  rw [String.data_append] at hd
  have h1 := (List.append_eq_nil.mp hd).1
  cases a with
  | mk d => cases h1; rfl

/-- A needle occurs in any string extending it on the left. -/
theorem strContains_append_self (p s : String) : strContains (p ++ s) s = true := by
  unfold strContains listContainsSub
  rw [String.data_append, List.any_eq_true]
  refine ⟨p.data.length, ?_, ?_⟩
  · rw [List.mem_range, List.length_append]
    omega
  · rw [List.drop_left]
    exact List.isPrefixOf_iff_prefix.mpr (List.prefix_refl _)

/-- `joinNl` of a list of nonempty strings is empty only for the empty
list. -/
theorem joinNl_eq_empty_iff (l : List String) (h : ∀ x ∈ l, x ≠ "") :
    joinNl l = "" ↔ l = [] := by
  cases l with
  | nil => simp [joinNl]
  | cons x rest =>
    cases rest with
    | nil =>
      simp only [joinNl]
      constructor
      · intro hx; exact absurd hx (h x (by simp))
      · intro hc; cases hc
    | cons y t =>
      simp only [joinNl]
      constructor
      · intro hx
        exact absurd hx (strAppendNeEmpty _ _ (strAppendNeEmpty _ _ (h x (by simp))))
      · intro hc; cases hc

/-- Claim C9: a line that is empty or whitespace-only makes `execute_command`
return `(0, "", "")` immediately: nothing is appended to history and no
tokenization, alias expansion, registry lookup or external dispatch takes
place (the routing outcome is already a final result, independent of the
alias table). -/
theorem blank_line_no_dispatch (al : AliasTable) (fuel : Nat) (line : String)
    (h : pyStrip line = "") :
    executeCommand al (fuel + 1) line = ([], .result ⟨0, "", ""⟩) := by
  simp [executeCommand, h]

/-- Witness for `blank_line_no_dispatch` at the whitespace-only line. -/
theorem blank_line_no_dispatch_witness :
    executeCommand [] 1 "  \t " = ([], .result ⟨0, "", ""⟩) :=
  blank_line_no_dispatch [] 0 "  \t " (by decide)

/-- Claim C2 (refuted): the dispatcher has no recursion guard.  The line
`touch to b` contains the indicator `to`, so it is classified as natural
language, and the file-creation rule translates it to itself; with any
amount of fuel (call-stack budget) `execute_command` re-translates at every
depth, appends one more history entry per level, exhausts the whole budget
and never executes the text literally. -/
theorem translation_fixed_point_exhausts_all_fuel (al : AliasTable) (fuel : Nat) :
    (executeCommand al fuel "touch to b").2 = Dispatch.outOfFuel ∧
    (executeCommand al fuel "touch to b").1.length = fuel := by
  have h1 : ¬(pyStrip "touch to b" = "") := by decide
  have h2 : (isNaturalLanguage "touch to b" && (interpret "touch to b").1) = true := by decide
  have h3 : (interpret "touch to b").2.1 = "touch to b" := by decide
  induction fuel with
  | zero => exact ⟨rfl, rfl⟩
  | succ n ih =>
    have e : executeCommand al (n + 1) "touch to b" =
        ("touch to b" :: (executeCommand al n "touch to b").1,
         (executeCommand al n "touch to b").2) := by
      simp only [executeCommand]
      rw [if_neg h1, if_pos h2, h3]
    rw [e]
    exact ⟨ih.1, by simp [ih.2]⟩

/-- Claim C1 (counterexample): the natural-language line is translated to
`touch demo.txt` and the recursive re-submission appends the translated
line to history as well, so history holds both lines after one external
call. -/
theorem translated_line_recorded_in_history :
    (executeCommand [] 3 "create a new file called demo.txt").1 =
      ["create a new file called demo.txt", "touch demo.txt"] := by
  decide

/-- Claim C1 (amended): history is appended with the submitted line once per
invocation of `execute_command`, including recursive internal
re-submissions: every non-blank call records its own line first, and a
successful translation makes the recursive call record the translated line
in turn. -/
theorem history_once_per_invocation :
    (∀ (al : AliasTable) (fuel : Nat) (line : String), pyStrip line ≠ "" →
      (executeCommand al (fuel + 1) line).1.head? = some line) ∧
    (∀ (al : AliasTable) (fuel : Nat) (line cmd expl : String), pyStrip line ≠ "" →
      isNaturalLanguage line = true → interpret line = (true, cmd, expl) →
      (executeCommand al (fuel + 1) line).1 = line :: (executeCommand al fuel cmd).1) := by
  constructor
  · intro al fuel line h
    by_cases hc : (isNaturalLanguage line && (interpret line).1) = true
    · simp [executeCommand, h, hc]
    · simp [executeCommand, h, hc]
  · intro al fuel line cmd expl h hnl hint
    have h1 : (interpret line).1 = true := by rw [hint]
    have h2 : (interpret line).2.1 = cmd := by rw [hint]
    simp [executeCommand, h, hnl, h1, h2]

/-- Witness for `history_once_per_invocation`: a literal line records
itself; the translated line of a natural-language line heads the recursive
history. -/
theorem history_once_per_invocation_witness :
    (executeCommand [] 1 "ls").1.head? = some "ls" ∧
    (executeCommand [] 1 "create a new file called demo.txt").1 =
      "create a new file called demo.txt" :: (executeCommand [] 0 "touch demo.txt").1 :=
  ⟨history_once_per_invocation.1 [] 0 "ls" (by decide),
   history_once_per_invocation.2 [] 0 "create a new file called demo.txt" "touch demo.txt"
     ("Interpreted " ++ sq ++ "create a new file called demo.txt" ++ sq ++
       " as: touch demo.txt\nAction: Create a new file")
     (by decide) (by decide) (by decide)⟩

/-- Claim C3 (counterexample): with no remote model configured,
`interpret "show me all files"` does match (`matched = true`) but the
command is the keyword-fallback `ls`, not `ls -la`; indeed no pattern of
the rule table matches this query at all. -/
theorem show_me_all_files_not_from_listing_rule :
    (interpret "show me all files").2.1 = "ls" ∧
    (interpret "show me all files").2.1 ≠ "ls -la" ∧
    scanRules ("show me all files").data initializePatterns = none := by
  refine ⟨by decide, by decide, by decide⟩

/-- Claim C3 (amended): `interpret "show me all files"` returns
`matched = true` with the literal command `ls`, produced by the keyword
fallback (keyword `show`), because none of the regular-expression rules —
including the directory-listing rule with template `ls -la` — matches this
phrasing. -/
theorem show_me_all_files_fallback_ls :
    interpret "show me all files" =
      (true, "ls", "Interpreted as: ls - List files in current directory") := by
  decide

/-- Claim C4 (counterexample): executing `export FOO=bar` mutates the host
process environment (`os.environ`) immediately, not only the Session
mapping. -/
theorem export_mutates_host_environment :
    (SystemCommands.exportCmd ⟨[("PATH", "/bin")], [("PATH", "/bin")]⟩ ["FOO=bar"]).1.hostEnviron ≠
      [("PATH", "/bin")] := by
  decide

/-- Claim C4 (amended): `export NAME=VALUE` writes the binding into both the
Session-scoped environment mapping and the host process environment at
export time, and succeeds with `(0, "", "")`. -/
theorem export_sets_session_and_host (w : EnvWorld) (arg k v : String)
    (h : splitEqOnce arg = some (k, v)) :
    SystemCommands.exportCmd w [arg] =
      (⟨dictSet w.environmentVars k v, dictSet w.hostEnviron k v⟩, ⟨0, "", ""⟩) := by
  simp [SystemCommands.exportCmd, SystemCommands.exportLoop, h]

/-- Witness for `export_sets_session_and_host` on the empty environment. -/
theorem export_sets_session_and_host_witness :
    SystemCommands.exportCmd ⟨[], []⟩ ["FOO=bar"] =
      (⟨[("FOO", "bar")], [("FOO", "bar")]⟩, ⟨0, "", ""⟩) :=
  (export_sets_session_and_host ⟨[], []⟩ "FOO=bar" "FOO" "bar" (by decide)).trans (by decide)

/-- Claim C5: on the literal path, a line whose first token has an alias is
expanded exactly once: the expansion replaces the command token, the
combined string is re-tokenized, and the first token of the re-tokenized
result resolves directly against the registry — the routing outcome is
determined by that token alone, without a second alias lookup, so a
self-referencing alias cannot recurse. -/
theorem alias_expanded_exactly_once (al : AliasTable) (fuel : Nat)
    (line c exp c2 : String) (rest rest2 : List String)
    (hline : pyStrip line ≠ "")
    (hnl : (isNaturalLanguage line && (interpret line).1) = false)
    (hparse : parseCommandLine line = .ok (c :: rest))
    (halias : List.lookup c al = some exp)
    (hparse2 : parseCommandLine (exp ++ " " ++ joinSpace rest) = .ok (c2 :: rest2)) :
    (executeCommand al (fuel + 1) line).2 =
      (if builtinNames.contains c2 then Dispatch.builtin c2 rest2
       else Dispatch.external (c2 :: rest2)) := by
  simp [executeCommand, hline, hnl, literalDispatch, hparse, halias, hparse2, resolveDispatch]

/-- Witness for `alias_expanded_exactly_once`: with `ll` aliased to `ls -la`
and `ls` itself aliased to `echo no`, submitting `ll` resolves to the
builtin `ls` with argument `-la` — the alias for `ls` is not consulted
again. -/
theorem alias_expanded_exactly_once_witness :
    (executeCommand [("ll", "ls -la"), ("ls", "echo no")] 1 "ll").2 =
      Dispatch.builtin "ls" ["-la"] :=
  (alias_expanded_exactly_once [("ll", "ls -la"), ("ls", "echo no")] 0
    "ll" "ll" "ls -la" "ls" [] ["-la"]
    (by decide) (by decide) rfl (by decide) rfl).trans (by decide)

/-- Claim C6: `cd` to a target that does not exist or is not a directory
returns exit code 1 with an explanatory message and leaves the session's
current directory untouched — validation happens before any assignment. -/
theorem cd_invalid_target_leaves_directory (fs : Fs) (home cwd : String)
    (args : List String) (target : String)
    (htarget : target = (match args with | [] => home | a :: _ => resolvePath cwd a))
    (hbad : fs.pathExists target = false ∨ fs.isDirectory target = false) :
    (FileOperations.cd fs home cwd args).1 = cwd ∧
    (FileOperations.cd fs home cwd args).2.exitCode = 1 ∧
    ((FileOperations.cd fs home cwd args).2.stderr =
        "cd: no such file or directory: " ++ target ∨
      (FileOperations.cd fs home cwd args).2.stderr = "cd: not a directory: " ++ target) := by
  rcases hbad with h | h
  · refine ⟨?_, ?_, Or.inl ?_⟩ <;> simp [FileOperations.cd, ← htarget, h]
  · by_cases hex : fs.pathExists target = true
    · refine ⟨?_, ?_, Or.inr ?_⟩ <;> simp [FileOperations.cd, ← htarget, hex, h]
    · have hex' : fs.pathExists target = false := by
        cases hfe : fs.pathExists target
        · rfl
        · exact absurd hfe hex
      refine ⟨?_, ?_, Or.inl ?_⟩ <;> simp [FileOperations.cd, ← htarget, hex']

/-- Witness for `cd_invalid_target_leaves_directory` with a filesystem in
which nothing exists. -/
theorem cd_invalid_target_leaves_directory_witness :
    (FileOperations.cd ⟨fun _ => false, fun _ => true, fun _ => false, fun s => s⟩
        "/home" "/cwd" ["x"]).1 = "/cwd" ∧
    (FileOperations.cd ⟨fun _ => false, fun _ => true, fun _ => false, fun s => s⟩
        "/home" "/cwd" ["x"]).2.exitCode = 1 ∧
    ((FileOperations.cd ⟨fun _ => false, fun _ => true, fun _ => false, fun s => s⟩
        "/home" "/cwd" ["x"]).2.stderr =
        "cd: no such file or directory: " ++ "/cwd/x" ∨
      (FileOperations.cd ⟨fun _ => false, fun _ => true, fun _ => false, fun s => s⟩
        "/home" "/cwd" ["x"]).2.stderr = "cd: not a directory: " ++ "/cwd/x") :=
  cd_invalid_target_leaves_directory
    ⟨fun _ => false, fun _ => true, fun _ => false, fun s => s⟩
    "/home" "/cwd" ["x"] "/cwd/x" (by decide) (Or.inl rfl)

/-- Claim C7: for a token list delegated to external execution, an
executable-not-found launch failure yields exit code 127 with a stderr
containing `command not found: <name>` for the attempted command, and any
other launch failure yields exit code 1 with a nonempty descriptive stderr;
every launch outcome maps to a `CommandResult`, so no exception escapes. -/
theorem external_failure_mapping
    (launch : List String → String → List (String × String) → LaunchOutcome)
    (cwd : String) (envVars : List (String × String)) (c : String) (rest : List String) :
    (launch (c :: rest) cwd envVars = .notFound →
      executeExternalCommand launch cwd envVars (c :: rest) =
        ⟨127, "", "PyTerminal: command not found: " ++ c⟩ ∧
      strContains (executeExternalCommand launch cwd envVars (c :: rest)).stderr
        ("command not found: " ++ c) = true) ∧
    (∀ msg, launch (c :: rest) cwd envVars = .failed msg →
      (executeExternalCommand launch cwd envVars (c :: rest)).exitCode = 1 ∧
      (executeExternalCommand launch cwd envVars (c :: rest)).stderr ≠ "") := by
  constructor
  · intro h
    have hlit : ("PyTerminal: command not found: " : String) =
        "PyTerminal: " ++ "command not found: " := by decide
    constructor
    · simp [executeExternalCommand, h]
    · simp only [executeExternalCommand, h]
      rw [hlit, String.append_assoc]
      exact strContains_append_self _ _
  · intro msg h
    constructor
    · simp [executeExternalCommand, h]
    · simp only [executeExternalCommand, h]
      exact strAppendNeEmpty _ msg (by decide)

/-- Witness for `external_failure_mapping` with constant launch oracles. -/
theorem external_failure_mapping_witness :
    executeExternalCommand (fun _ _ _ => .notFound) "/" [] ["foo"] =
      ⟨127, "", "PyTerminal: command not found: foo"⟩ ∧
    (executeExternalCommand (fun _ _ _ => .failed "boom") "/" [] ["foo"]).exitCode = 1 :=
  ⟨((external_failure_mapping (fun _ _ _ => .notFound) "/" [] "foo" []).1 rfl).1,
   ((external_failure_mapping (fun _ _ _ => .failed "boom") "/" [] "foo" []).2 "boom" rfl).1⟩

/-- The inner pattern loop equals a first-`findSome?` over the patterns. -/
theorem scanPatterns_eq_findSome (q : List Char) (tmpl desc : String) (ps : List Rx) :
    scanPatterns q tmpl desc ps = ps.findSome? (fun p => (searchRx p q).bind (fun caps =>
      (formatTemplate caps tmpl.data).map (fun cmd => (String.mk cmd, desc)))) := by
  induction ps with
  | nil => rfl
  | cons p ps ih =>
    simp only [scanPatterns, List.findSome?]
    cases hs : searchRx p q with
    | none => simp [hs, ih]
    | some caps =>
      cases hf : formatTemplate caps tmpl.data with
      | none => simp [hs, hf, ih]
      | some cmd => simp [hs, hf]

/-- Claim C8: pattern interpretation is a deterministic first-match scan:
the nested loops of `_pattern_match_interpret` compute exactly the first
entry, in rule-then-pattern declaration order, whose regular expression
matches the query and whose template substitution succeeds; a substitution
failure behaves as a non-match and scanning continues instead of
aborting. -/
theorem pattern_scan_first_match (rules : List Rule) (q : List Char) :
    scanRules q rules = scanRulesSpec q rules := by
  induction rules with
  | nil => rfl
  | cons r rs ih =>
    have hspec : scanRulesSpec q (r :: rs) =
        (r.patterns.findSome? (fun p => (searchRx p q).bind (fun caps =>
          (formatTemplate caps r.commandTemplate.data).map
            (fun cmd => (String.mk cmd, r.description))))).or (scanRulesSpec q rs) := by
      simp [scanRulesSpec, List.flatMap_cons, List.findSome?_append, List.findSome?_map,
        Function.comp_def]
    rw [hspec, ← ih, ← scanPatterns_eq_findSome]
    cases h : scanPatterns q r.commandTemplate r.description r.patterns with
    | none => simp [scanRules, h, Option.or]
    | some x => simp [scanRules, h, Option.or]

namespace FileOperations

/-- `cat` produces no output exactly when no named file was readable (a
successful read contributes its text, even an empty one). -/
theorem catLoop_output_nil_iff (fs : String → FileState) (cwd : String) (files : List String) :
    (catLoop fs cwd files).1 = [] ↔ ∀ f ∈ files, fileOk fs cwd f = false := by
  induction files with
  | nil => simp [catLoop]
  | cons f rest ih =>
    simp only [catLoop]
    cases h : fs (resolvePath cwd f) with
    | content ls => simp [fileOk, h]
    | dir => simp [fileOk, h, ih]
    | notFound => simp [fileOk, h, ih]
    | permDenied => simp [fileOk, h, ih]
    | err m => simp [fileOk, h, ih]

/-- `cat` produces no error message exactly when every named file was
readable. -/
theorem catLoop_errors_nil_iff (fs : String → FileState) (cwd : String) (files : List String) :
    (catLoop fs cwd files).2 = [] ↔ ∀ f ∈ files, fileOk fs cwd f = true := by
  induction files with
  | nil => simp [catLoop]
  | cons f rest ih =>
    simp only [catLoop]
    cases h : fs (resolvePath cwd f) with
    | content ls => simp [fileOk, h, ih]
    | dir => simp [fileOk, h]
    | notFound => simp [fileOk, h]
    | permDenied => simp [fileOk, h]
    | err m => simp [fileOk, h]

/-- Every error message `cat` accumulates is nonempty. -/
theorem catLoop_errors_ne_empty (fs : String → FileState) (cwd : String) (files : List String) :
    ∀ x ∈ (catLoop fs cwd files).2, x ≠ "" := by
  induction files with
  | nil => simp [catLoop]
  | cons f rest ih =>
    simp only [catLoop]
    cases h : fs (resolvePath cwd f) with
    | content ls => simpa using ih
    | dir =>
      intro x hx
      rcases List.mem_cons.mp hx with hx | hx
      · subst hx; exact strAppendNeEmpty _ _ (strAppendNeEmpty _ _ (by decide))
      · exact ih x hx
    | notFound =>
      intro x hx
      rcases List.mem_cons.mp hx with hx | hx
      · subst hx; exact strAppendNeEmpty _ _ (strAppendNeEmpty _ _ (by decide))
      · exact ih x hx
    | permDenied =>
      intro x hx
      rcases List.mem_cons.mp hx with hx | hx
      · subst hx; exact strAppendNeEmpty _ _ (strAppendNeEmpty _ _ (by decide))
      · exact ih x hx
    | err m =>
      intro x hx
      rcases List.mem_cons.mp hx with hx | hx
      · subst hx
        exact strAppendNeEmpty _ _ (strAppendNeEmpty _ _ (strAppendNeEmpty _ _ (by decide)))
      · exact ih x hx

/-- `head` produces no error message exactly when every named file was
readable. -/
theorem headLoop_errors_nil_iff (fs : String → FileState) (cwd : String) (multi : Bool)
    (n : Int) (files : List String) :
    (headLoop fs cwd multi n files).2 = [] ↔ ∀ f ∈ files, fileOk fs cwd f = true := by
  induction files with
  | nil => simp [headLoop]
  | cons f rest ih =>
    simp only [headLoop]
    cases h : fs (resolvePath cwd f) with
    | content ls => simp [fileOk, h, ih]
    | dir => simp [fileOk, h]
    | notFound => simp [fileOk, h]
    | permDenied => simp [fileOk, h]
    | err m => simp [fileOk, h]

/-- Every error message `head` accumulates is nonempty. -/
theorem headLoop_errors_ne_empty (fs : String → FileState) (cwd : String) (multi : Bool)
    (n : Int) (files : List String) :
    ∀ x ∈ (headLoop fs cwd multi n files).2, x ≠ "" := by
  induction files with
  | nil => simp [headLoop]
  | cons f rest ih =>
    simp only [headLoop]
    cases h : fs (resolvePath cwd f) with
    | content ls => simpa using ih
    | dir =>
      intro x hx
      rcases List.mem_cons.mp hx with hx | hx
      · subst hx; exact strAppendNeEmpty _ _ (strAppendNeEmpty _ _ (by decide))
      · exact ih x hx
    | notFound =>
      intro x hx
      rcases List.mem_cons.mp hx with hx | hx
      · subst hx; exact strAppendNeEmpty _ _ (strAppendNeEmpty _ _ (by decide))
      · exact ih x hx
    | permDenied =>
      intro x hx
      rcases List.mem_cons.mp hx with hx | hx
      · subst hx; exact strAppendNeEmpty _ _ (strAppendNeEmpty _ _ (by decide))
      · exact ih x hx
    | err m =>
      intro x hx
      rcases List.mem_cons.mp hx with hx | hx
      · subst hx
        exact strAppendNeEmpty _ _ (strAppendNeEmpty _ _ (strAppendNeEmpty _ _ (by decide)))
      · exact ih x hx

/-- When every named file fails, `head` produces no output at all. -/
theorem headLoop_output_nil_of_allfail (fs : String → FileState) (cwd : String) (multi : Bool)
    (n : Int) (files : List String) (h : ∀ f ∈ files, fileOk fs cwd f = false) :
    (headLoop fs cwd multi n files).1 = [] := by
  induction files with
  | nil => simp [headLoop]
  | cons f rest ih =>
    simp only [headLoop]
    cases hfs : fs (resolvePath cwd f) with
    | content ls => exact absurd (h f (by simp)) (by simp [fileOk, hfs])
    | dir => exact ih (fun g hg => h g (List.mem_cons_of_mem f hg))
    | notFound => exact ih (fun g hg => h g (List.mem_cons_of_mem f hg))
    | permDenied => exact ih (fun g hg => h g (List.mem_cons_of_mem f hg))
    | err m => exact ih (fun g hg => h g (List.mem_cons_of_mem f hg))

/-- With the multi-file banner enabled, any readable named file makes the
`head` output nonempty. -/
theorem headLoop_output_ne_nil_of_ok (fs : String → FileState) (cwd : String)
    (n : Int) (files : List String) (f : String) (hmem : f ∈ files)
    (hok : fileOk fs cwd f = true) :
    (headLoop fs cwd true n files).1 ≠ [] := by
  induction files with
  | nil => cases hmem
  | cons g rest ih =>
    simp only [headLoop]
    cases hfs : fs (resolvePath cwd g) with
    | content ls => simp
    | dir =>
      rcases List.mem_cons.mp hmem with hf | hf
      · subst hf; simp [fileOk, hfs] at hok
      · exact ih hf
    | notFound =>
      rcases List.mem_cons.mp hmem with hf | hf
      · subst hf; simp [fileOk, hfs] at hok
      · exact ih hf
    | permDenied =>
      rcases List.mem_cons.mp hmem with hf | hf
      · subst hf; simp [fileOk, hfs] at hok
      · exact ih hf
    | err m =>
      rcases List.mem_cons.mp hmem with hf | hf
      · subst hf; simp [fileOk, hfs] at hok
      · exact ih hf

/-- `tail` produces no error message exactly when every named file was
readable. -/
theorem tailLoop_errors_nil_iff (fs : String → FileState) (cwd : String) (multi : Bool)
    (n : Int) (files : List String) :
    (tailLoop fs cwd multi n files).2 = [] ↔ ∀ f ∈ files, fileOk fs cwd f = true := by
  induction files with
  | nil => simp [tailLoop]
  | cons f rest ih =>
    simp only [tailLoop]
    cases h : fs (resolvePath cwd f) with
    | content ls => simp [fileOk, h, ih]
    | dir => simp [fileOk, h]
    | notFound => simp [fileOk, h]
    | permDenied => simp [fileOk, h]
    | err m => simp [fileOk, h]

/-- Every error message `tail` accumulates is nonempty. -/
theorem tailLoop_errors_ne_empty (fs : String → FileState) (cwd : String) (multi : Bool)
    (n : Int) (files : List String) :
    ∀ x ∈ (tailLoop fs cwd multi n files).2, x ≠ "" := by
  induction files with
  | nil => simp [tailLoop]
  | cons f rest ih =>
    simp only [tailLoop]
    cases h : fs (resolvePath cwd f) with
    | content ls => simpa using ih
    | dir =>
      intro x hx
      rcases List.mem_cons.mp hx with hx | hx
      · subst hx; exact strAppendNeEmpty _ _ (strAppendNeEmpty _ _ (by decide))
      · exact ih x hx
    | notFound =>
      intro x hx
      rcases List.mem_cons.mp hx with hx | hx
      · subst hx; exact strAppendNeEmpty _ _ (strAppendNeEmpty _ _ (by decide))
      · exact ih x hx
    | permDenied =>
      intro x hx
      rcases List.mem_cons.mp hx with hx | hx
      · subst hx; exact strAppendNeEmpty _ _ (strAppendNeEmpty _ _ (by decide))
      · exact ih x hx
    | err m =>
      intro x hx
      rcases List.mem_cons.mp hx with hx | hx
      · subst hx
        exact strAppendNeEmpty _ _ (strAppendNeEmpty _ _ (strAppendNeEmpty _ _ (by decide)))
      · exact ih x hx

/-- When every named file fails, `tail` produces no output at all. -/
theorem tailLoop_output_nil_of_allfail (fs : String → FileState) (cwd : String) (multi : Bool)
    (n : Int) (files : List String) (h : ∀ f ∈ files, fileOk fs cwd f = false) :
    (tailLoop fs cwd multi n files).1 = [] := by
  induction files with
  | nil => simp [tailLoop]
  | cons f rest ih =>
    simp only [tailLoop]
    cases hfs : fs (resolvePath cwd f) with
    | content ls => exact absurd (h f (by simp)) (by simp [fileOk, hfs])
    | dir => exact ih (fun g hg => h g (List.mem_cons_of_mem f hg))
    | notFound => exact ih (fun g hg => h g (List.mem_cons_of_mem f hg))
    | permDenied => exact ih (fun g hg => h g (List.mem_cons_of_mem f hg))
    | err m => exact ih (fun g hg => h g (List.mem_cons_of_mem f hg))

/-- With the multi-file banner enabled, any readable named file makes the
`tail` output nonempty. -/
theorem tailLoop_output_ne_nil_of_ok (fs : String → FileState) (cwd : String)
    (n : Int) (files : List String) (f : String) (hmem : f ∈ files)
    (hok : fileOk fs cwd f = true) :
    (tailLoop fs cwd true n files).1 ≠ [] := by
  induction files with
  | nil => cases hmem
  | cons g rest ih =>
    simp only [tailLoop]
    cases hfs : fs (resolvePath cwd g) with
    | content ls => simp
    | dir =>
      rcases List.mem_cons.mp hmem with hf | hf
      · subst hf; simp [fileOk, hfs] at hok
      · exact ih hf
    | notFound =>
      rcases List.mem_cons.mp hmem with hf | hf
      · subst hf; simp [fileOk, hfs] at hok
      · exact ih hf
    | permDenied =>
      rcases List.mem_cons.mp hmem with hf | hf
      · subst hf; simp [fileOk, hfs] at hok
      · exact ih hf
    | err m =>
      rcases List.mem_cons.mp hmem with hf | hf
      · subst hf; simp [fileOk, hfs] at hok
      · exact ih hf

/-- Claim C10: `cat`, `head` and `tail` return exit code 1 only when every
named file failed: the exit code is 0 as soon as one file was read
successfully, even when other named files produced errors, and stderr is
empty exactly when every named file was readable (so per-file error
messages are still reported alongside successful output). -/
theorem read_builtins_fail_only_when_all_fail (fs : String → FileState) (cwd : String) :
    (∀ args : List String, args ≠ [] →
      (cat fs cwd args).exitCode =
        (if args.all (fun f => !(fileOk fs cwd f)) then 1 else 0) ∧
      ((cat fs cwd args).stderr = "" ↔
        args.all (fun f => fileOk fs cwd f) = true)) ∧
    (∀ (args files : List String) (n : Int),
      scanNFiles "head" 10 [] args = .ok (n, files) → files ≠ [] →
      (head fs cwd args).exitCode =
        (if files.all (fun f => !(fileOk fs cwd f)) then 1 else 0) ∧
      ((head fs cwd args).stderr = "" ↔
        files.all (fun f => fileOk fs cwd f) = true)) ∧
    (∀ (args files : List String) (n : Int),
      scanNFiles "tail" 10 [] args = .ok (n, files) → files ≠ [] →
      (tail fs cwd args).exitCode =
        (if files.all (fun f => !(fileOk fs cwd f)) then 1 else 0) ∧
      ((tail fs cwd args).stderr = "" ↔
        files.all (fun f => fileOk fs cwd f) = true)) := by
  refine ⟨?_, ?_, ?_⟩
  · intro args hne
    constructor
    · by_cases hall : args.all (fun f => !(fileOk fs cwd f)) = true
      · have hfail : ∀ f ∈ args, fileOk fs cwd f = false := by
          intro f hf
          have := List.all_eq_true.mp hall f hf
          simpa using this
        have ho : (catLoop fs cwd args).1 = [] := (catLoop_output_nil_iff fs cwd args).mpr hfail
        have he : (catLoop fs cwd args).2 ≠ [] := by
          intro h0
          rcases List.exists_mem_of_ne_nil args hne with ⟨f0, hf0⟩
          have := (catLoop_errors_nil_iff fs cwd args).mp h0 f0 hf0
          rw [hfail f0 hf0] at this
          cases this
        simp [cat, hne, hall, ho, he]
      · have hex : ∃ f ∈ args, fileOk fs cwd f = true := by
          have h1 : ¬(∀ f ∈ args, (!(fileOk fs cwd f)) = true) :=
            fun hno => hall (List.all_eq_true.mpr hno)
          push_neg at h1
          rcases h1 with ⟨f0, hf0, hnb⟩
          refine ⟨f0, hf0, ?_⟩
          cases hb : fileOk fs cwd f0
          · exact absurd (by simp [hb]) hnb
          · rfl
        rcases hex with ⟨f0, hf0, hok⟩
        have ho : (catLoop fs cwd args).1 ≠ [] := by
          intro h0
          have := (catLoop_output_nil_iff fs cwd args).mp h0 f0 hf0
          rw [this] at hok
          cases hok
        simp [cat, hne, hall, ho]
    · have hs : (cat fs cwd args).stderr = joinNl (catLoop fs cwd args).2 := by
        simp [cat, hne]
      rw [hs, joinNl_eq_empty_iff _ (catLoop_errors_ne_empty fs cwd args),
        catLoop_errors_nil_iff, List.all_eq_true]
  · intro args files n hscan hne
    have hh : head fs cwd args =
        ⟨if (headLoop fs cwd (decide (files.length > 1)) n files).2 ≠ [] &&
            (headLoop fs cwd (decide (files.length > 1)) n files).1 = [] then 1 else 0,
          joinNl (headLoop fs cwd (decide (files.length > 1)) n files).1,
          joinNl (headLoop fs cwd (decide (files.length > 1)) n files).2⟩ := by
      simp [head, hscan, hne]
    constructor
    · by_cases hall : files.all (fun f => !(fileOk fs cwd f)) = true
      · have hfail : ∀ f ∈ files, fileOk fs cwd f = false := by
          intro f hf
          have := List.all_eq_true.mp hall f hf
          simpa using this
        have ho := headLoop_output_nil_of_allfail fs cwd (decide (files.length > 1)) n files hfail
        have he : (headLoop fs cwd (decide (files.length > 1)) n files).2 ≠ [] := by
          intro h0
          rcases List.exists_mem_of_ne_nil files hne with ⟨f0, hf0⟩
          have := (headLoop_errors_nil_iff fs cwd _ n files).mp h0 f0 hf0
          rw [hfail f0 hf0] at this
          cases this
        rw [hh]
        simp [hall, ho, he]
      · have hex : ∃ f ∈ files, fileOk fs cwd f = true := by
          have h1 : ¬(∀ f ∈ files, (!(fileOk fs cwd f)) = true) :=
            fun hno => hall (List.all_eq_true.mpr hno)
          push_neg at h1
          rcases h1 with ⟨f0, hf0, hnb⟩
          refine ⟨f0, hf0, ?_⟩
          cases hb : fileOk fs cwd f0
          · exact absurd (by simp [hb]) hnb
          · rfl
        rcases hex with ⟨f0, hf0, hok⟩
        cases files with
        | nil => exact absurd rfl hne
        | cons g rest =>
          cases rest with
          | nil =>
            have hokg : fileOk fs cwd g = true := by
              rcases List.mem_singleton.mp hf0 with rfl
              exact hok
            have he : (headLoop fs cwd false n [g]).2 = [] := by
              refine (headLoop_errors_nil_iff fs cwd false n [g]).mpr ?_
              intro f hf
              rcases List.mem_singleton.mp hf with rfl
              exact hokg
            rw [hh]
            simp [hall, he]
          | cons g2 t =>
            have hmul : decide ((g :: g2 :: t).length > 1) = true := by
              apply decide_eq_true
              simp [List.length_cons]
            have ho : (headLoop fs cwd true n (g :: g2 :: t)).1 ≠ [] :=
              headLoop_output_ne_nil_of_ok fs cwd n (g :: g2 :: t) f0 hf0 hok
            rw [hh, hmul]
            simp [hall, ho]
    · have hs : (head fs cwd args).stderr =
          joinNl (headLoop fs cwd (decide (files.length > 1)) n files).2 := by
        rw [hh]
      rw [hs, joinNl_eq_empty_iff _ (headLoop_errors_ne_empty fs cwd _ n files),
        headLoop_errors_nil_iff, List.all_eq_true]
  · intro args files n hscan hne
    have hh : tail fs cwd args =
        ⟨if (tailLoop fs cwd (decide (files.length > 1)) n files).2 ≠ [] &&
            (tailLoop fs cwd (decide (files.length > 1)) n files).1 = [] then 1 else 0,
          joinNl (tailLoop fs cwd (decide (files.length > 1)) n files).1,
          joinNl (tailLoop fs cwd (decide (files.length > 1)) n files).2⟩ := by
      simp [tail, hscan, hne]
    constructor
    · by_cases hall : files.all (fun f => !(fileOk fs cwd f)) = true
      · have hfail : ∀ f ∈ files, fileOk fs cwd f = false := by
          intro f hf
          have := List.all_eq_true.mp hall f hf
          simpa using this
        have ho := tailLoop_output_nil_of_allfail fs cwd (decide (files.length > 1)) n files hfail
        have he : (tailLoop fs cwd (decide (files.length > 1)) n files).2 ≠ [] := by
          intro h0
          rcases List.exists_mem_of_ne_nil files hne with ⟨f0, hf0⟩
          have := (tailLoop_errors_nil_iff fs cwd _ n files).mp h0 f0 hf0
          rw [hfail f0 hf0] at this
          cases this
        rw [hh]
        simp [hall, ho, he]
      · have hex : ∃ f ∈ files, fileOk fs cwd f = true := by
          have h1 : ¬(∀ f ∈ files, (!(fileOk fs cwd f)) = true) :=
            fun hno => hall (List.all_eq_true.mpr hno)
          push_neg at h1
          rcases h1 with ⟨f0, hf0, hnb⟩
          refine ⟨f0, hf0, ?_⟩
          cases hb : fileOk fs cwd f0
          · exact absurd (by simp [hb]) hnb
          · rfl
        rcases hex with ⟨f0, hf0, hok⟩
        cases files with
        | nil => exact absurd rfl hne
        | cons g rest =>
          cases rest with
          | nil =>
            have hokg : fileOk fs cwd g = true := by
              rcases List.mem_singleton.mp hf0 with rfl
              exact hok
            have he : (tailLoop fs cwd false n [g]).2 = [] := by
              refine (tailLoop_errors_nil_iff fs cwd false n [g]).mpr ?_
              intro f hf
              rcases List.mem_singleton.mp hf with rfl
              exact hokg
            rw [hh]
            simp [hall, he]
          | cons g2 t =>
            have hmul : decide ((g :: g2 :: t).length > 1) = true := by
              apply decide_eq_true
              simp [List.length_cons]
            have ho : (tailLoop fs cwd true n (g :: g2 :: t)).1 ≠ [] :=
              tailLoop_output_ne_nil_of_ok fs cwd n (g :: g2 :: t) f0 hf0 hok
            rw [hh, hmul]
            simp [hall, ho]
    · have hs : (tail fs cwd args).stderr =
          joinNl (tailLoop fs cwd (decide (files.length > 1)) n files).2 := by
        rw [hh]
      rw [hs, joinNl_eq_empty_iff _ (tailLoop_errors_ne_empty fs cwd _ n files),
        tailLoop_errors_nil_iff, List.all_eq_true]

/-- Witness for `read_builtins_fail_only_when_all_fail` on a filesystem
with one readable file: the mixed calls exit 0, the all-failing call
exits 1. -/
theorem read_builtins_fail_only_when_all_fail_witness :
    (cat (fun p => if p = "/c/ok" then FileState.content ["hi\n"] else FileState.notFound)
        "/c" ["ok", "miss"]).exitCode = 0 ∧
    (head (fun p => if p = "/c/ok" then FileState.content ["hi\n"] else FileState.notFound)
        "/c" ["ok", "miss"]).exitCode = 0 ∧
    (tail (fun p => if p = "/c/ok" then FileState.content ["hi\n"] else FileState.notFound)
        "/c" ["miss", "miss2"]).exitCode = 1 :=
  ⟨((read_builtins_fail_only_when_all_fail
      (fun p => if p = "/c/ok" then FileState.content ["hi\n"] else FileState.notFound)
      "/c").1 ["ok", "miss"] (by decide)).1.trans (by decide),
   ((read_builtins_fail_only_when_all_fail
      (fun p => if p = "/c/ok" then FileState.content ["hi\n"] else FileState.notFound)
      "/c").2.1 ["ok", "miss"] ["ok", "miss"] 10 rfl (by decide)).1.trans (by decide),
   ((read_builtins_fail_only_when_all_fail
      (fun p => if p = "/c/ok" then FileState.content ["hi\n"] else FileState.notFound)
      "/c").2.2 ["miss", "miss2"] ["miss", "miss2"] 10 rfl (by decide)).1.trans (by decide)⟩

end FileOperations

end PyTerminal
